import Mathlib

/-!
# Verification of the domain-configuration subsystem

Shallow embedding of the domain configuration and permission subsystem of
the cloud-document-converter browser extension:

* the domains module (`DEFAULT_DOMAINS`, `validateDomain`, `normalizeDomain`,
  `domainToUrlPatterns`, `getAllUrlPatterns`, `saveDomainConfig`,
  `loadDomainConfig`, `addCustomDomain`, `removeCustomDomain`), and
* `matchesCustomDomain` from the background script.

JavaScript strings are Lean `String`s.  The Chrome APIs
(`chrome.storage.sync`, `chrome.permissions`) are modelled by an explicit
`World` state threaded through every operation; a thrown/rejected JavaScript
exception propagating out of an `await` is modelled by `Except.error ()`
(state mutations made before the throw survive, as in JavaScript).

The module-level mutable object `DEFAULT_DOMAIN_CONFIG` (whose
`customDomains` field is initially `[]`) is modelled by the
`World.defaultObj` field together with the `ConfigRef` type, which records
whether a `DomainConfig` value is the module-level default object — returned
*by reference* from `loadDomainConfig` when the key is absent or the read
fails — or a freshly allocated object.  In-place mutations
(`config.customDomains.push(...)`, `config.customDomains.splice(...)`)
performed on the default object are therefore visible to later reads,
exactly as in the source.
-/

namespace Domains

/-- The whitespace code points removed by JavaScript `String.prototype.trim`
(ECMAScript WhiteSpace and LineTerminator). -/
def isJsWhitespace (c : Char) : Bool :=
  c = ' ' || c = '\t' || c = '\n' || c = '\r' || c = '\x0b' || c = '\x0c' ||
  c = '\u00A0' || c = '\uFEFF' || c = '\u1680' ||
  ('\u2000' ≤ c && c ≤ '\u200A') ||
  c = '\u2028' || c = '\u2029' || c = '\u202F' || c = '\u205F' || c = '\u3000'

/-- JavaScript `String.prototype.trim` on the character list: drop leading
and trailing whitespace. -/
def trimChars (cs : List Char) : List Char :=
  ((cs.dropWhile isJsWhitespace).reverse.dropWhile isJsWhitespace).reverse

/-- JavaScript `String.prototype.toLowerCase` on a single character,
restricted to ASCII letters (the only letters the domain grammar accepts;
all other characters are left unchanged, so strings containing them are
rejected by `validateDomain` just as in the source). -/
def lowerChar (c : Char) : Char :=
  if c = 'A' then 'a' else if c = 'B' then 'b' else if c = 'C' then 'c'
  else if c = 'D' then 'd' else if c = 'E' then 'e' else if c = 'F' then 'f'
  else if c = 'G' then 'g' else if c = 'H' then 'h' else if c = 'I' then 'i'
  else if c = 'J' then 'j' else if c = 'K' then 'k' else if c = 'L' then 'l'
  else if c = 'M' then 'm' else if c = 'N' then 'n' else if c = 'O' then 'o'
  else if c = 'P' then 'p' else if c = 'Q' then 'q' else if c = 'R' then 'r'
  else if c = 'S' then 's' else if c = 'T' then 't' else if c = 'U' then 'u'
  else if c = 'V' then 'v' else if c = 'W' then 'w' else if c = 'X' then 'x'
  else if c = 'Y' then 'y' else if c = 'Z' then 'z' else c

/-- JavaScript `hay.includes(needle)`: `needle` occurs as a contiguous
substring of `hay`. -/
def includesSeq (needle : List Char) : List Char → Bool
  | [] => needle.isEmpty
  | c :: cs => needle.isPrefixOf (c :: cs) || includesSeq needle cs

/-- JavaScript `s.endsWith(suffix)`. -/
def jsEndsWith (s suffix : String) : Bool :=
  suffix.data.isSuffixOf s.data

/-- The character class `[a-zA-Z0-9]` of the domain regex. -/
def isAlnum (c : Char) : Bool := c.isAlpha || c.isDigit

/-- One label of the domain regex:
`[a-zA-Z0-9]([a-zA-Z0-9-]*[a-zA-Z0-9])?` — nonempty, characters drawn from
`[a-zA-Z0-9-]`, first and last character alphanumeric. -/
def labelOk : List Char → Bool
  | [] => false
  | x :: xs =>
    (x :: xs).all (fun c => isAlnum c || c = '-') && isAlnum x &&
      isAlnum ((x :: xs).getLastD x)

/-- The final label of the domain regex: `[a-zA-Z]{2,}`. -/
def tldOk (l : List Char) : Bool :=
  decide (2 ≤ l.length) && l.all Char.isAlpha

/-- Split a character list at every `'.'` (JavaScript `s.split(".")`);
always returns at least one (possibly empty) segment. -/
def splitOnDot : List Char → List (List Char)
  | [] => [[]]
  | c :: cs =>
    if c = '.' then [] :: splitOnDot cs
    else
      match splitOnDot cs with
      | [] => [[c]]
      | r :: rs => (c :: r) :: rs

/-- The anchored domain regex of the source,
`/^[a-zA-Z0-9]([a-zA-Z0-9-]*[a-zA-Z0-9])?(\.[a-zA-Z0-9]([a-zA-Z0-9-]*[a-zA-Z0-9])?)*\.[a-zA-Z]\x7b2,\x7d$/`,
rendered by its dot-split characterization: no character class of the regex
contains `'.'`, so a full match decomposes the string uniquely into its
dot-separated segments; the regex accepts exactly the strings with at least
two segments whose non-final segments each match the label subexpression and
whose final segment matches `[a-zA-Z]\x7b2,\x7d`. -/
def domainPatternOk (cs : List Char) : Bool :=
  let segs := splitOnDot cs
  decide (2 ≤ segs.length) && segs.dropLast.all labelOk &&
    tldOk (segs.getLastD [])

/-- `validateDomain` from the domains module: trim, reject the empty string,
any occurrence of `://` or `/`, then test the domain regex. -/
def validateDomain (domain : String) : Bool :=
  let trimmed := trimChars domain.data
  if trimmed.isEmpty || includesSeq [':', '/', '/'] trimmed ||
      trimmed.contains '/' then
    false
  else domainPatternOk trimmed

/-- `normalizeDomain` from the domains module:
`domain.trim().toLowerCase()`. -/
def normalizeDomain (domain : String) : String :=
  String.mk ((trimChars domain.data).map lowerChar)

/-- `DEFAULT_DOMAINS` from the domains module. -/
def DEFAULT_DOMAINS : List String :=
  ["feishu.cn", "feishu.net", "larksuite.com", "feishu-pre.net",
   "larkoffice.com", "larkenterprise.com"]

/-- `domainToUrlPatterns` from the domains module. -/
def domainToUrlPatterns (domain : String) : List String :=
  ["https://" ++ domain ++ "/*", "https://*." ++ domain ++ "/*"]

/-- `getAllUrlPatterns` from the domains module: built-in patterns followed
by custom patterns. -/
def getAllUrlPatterns (customDomains : List String) : List String :=
  DEFAULT_DOMAINS.flatMap domainToUrlPatterns ++
    customDomains.flatMap domainToUrlPatterns

/-- The structured result `{ success, message }` returned by
`addCustomDomain` and `removeCustomDomain`. -/
structure AddResult where
  success : Bool
  message : String
deriving DecidableEq

/-- One external call made by the subsystem, recorded in order: a
`chrome.storage.sync.get`, a `chrome.storage.sync.set` (with the
serialized `customDomains` list), or a `chrome.permissions.request` (with
the requested origin patterns). -/
inductive ExtEvent where
  | storageGet
  | storageSet (customDomains : List String)
  | permissionRequest (origins : List String)
deriving DecidableEq

/-- The state of the host environment and of the module:

* `stored` — the value persisted under the `customDomains` storage key
  (`none` = key absent);
* `defaultObj` — the current contents of the `customDomains` array of the
  module-level `DEFAULT_DOMAIN_CONFIG` object (initially `[]`);
* `saveFails` / `loadFails` / `permFails` — whether the corresponding
  Chrome API call rejects (throws at the `await`);
* `permGrant` — the answer of `chrome.permissions.request` when it does
  not throw;
* `events` — log of the external calls made so far. -/
structure World where
  stored : Option (List String)
  defaultObj : List String
  saveFails : Bool
  loadFails : Bool
  permGrant : Bool
  permFails : Bool
  events : List ExtEvent
deriving DecidableEq

/-- A `DomainConfig` value as seen by the code: either the module-level
`DEFAULT_DOMAIN_CONFIG` object (aliased, by reference) or a freshly
allocated object with the given `customDomains` array. -/
inductive ConfigRef where
  | defaultRef
  | fresh (customDomains : List String)
deriving DecidableEq

/-- Dereference a `ConfigRef`: the current `customDomains` contents. -/
def readConfig (w : World) : ConfigRef → List String
  | .defaultRef => w.defaultObj
  | .fresh ds => ds

/-- `chrome.storage.sync.get(STORAGE_KEY)`. -/
def chromeStorageSyncGet (w : World) :
    World × Except Unit (Option (List String)) :=
  ({ w with events := w.events ++ [ExtEvent.storageGet] },
   if w.loadFails then Except.error () else Except.ok w.stored)

/-- `chrome.storage.sync.set({ [STORAGE_KEY]: config })`; serialization
copies the array, so `stored` holds a snapshot, never an alias. -/
def chromeStorageSyncSet (w : World) (ds : List String) :
    World × Except Unit Unit :=
  if w.saveFails then
    ({ w with events := w.events ++ [ExtEvent.storageSet ds] },
     Except.error ())
  else
    ({ w with
        stored := some ds,
        events := w.events ++ [ExtEvent.storageSet ds] },
     Except.ok ())

/-- `chrome.permissions.request({ origins })`. -/
def chromePermissionsRequest (w : World) (origins : List String) :
    World × Except Unit Bool :=
  ({ w with events := w.events ++ [ExtEvent.permissionRequest origins] },
   if w.permFails then Except.error () else Except.ok w.permGrant)

/-- `saveDomainConfig` from the domains module: persist the config's
current `customDomains` contents (a failing write propagates). -/
def saveDomainConfig (w : World) (config : ConfigRef) :
    World × Except Unit Unit :=
  chromeStorageSyncSet w (readConfig w config)

/-- `loadDomainConfig` from the domains module: read the key inside
`try`/`catch`; on a read failure or an absent key return the module-level
`DEFAULT_DOMAIN_CONFIG` object itself (by reference); on a present key
return a *fresh* config whose `customDomains` is the stored list filtered
by `validateDomain` (read-side filtering only — storage is not
rewritten). -/
def loadDomainConfig (w : World) : World × ConfigRef :=
  let g := chromeStorageSyncGet w
  match g.2 with
  | Except.error _ => (g.1, ConfigRef.defaultRef)
  | Except.ok none => (g.1, ConfigRef.defaultRef)
  | Except.ok (some ds) => (g.1, ConfigRef.fresh (ds.filter validateDomain))

/-- `config.customDomains.push(normalized)`: an in-place mutation of the
loaded config object; when that object is the module-level default, the
module-level array itself grows. -/
def pushDomain (w : World) (c : ConfigRef) (n : String) : World × ConfigRef :=
  match c with
  | .defaultRef =>
    ({ w with defaultObj := w.defaultObj ++ [n] }, ConfigRef.defaultRef)
  | .fresh ds => (w, ConfigRef.fresh (ds ++ [n]))

/-- `config.customDomains.splice(indexOf(normalized), 1)`: remove the first
occurrence in place (same aliasing behaviour as `pushDomain`). -/
def spliceDomain (w : World) (c : ConfigRef) (n : String) :
    World × ConfigRef :=
  match c with
  | .defaultRef =>
    ({ w with defaultObj := w.defaultObj.erase n }, ConfigRef.defaultRef)
  | .fresh ds => (w, ConfigRef.fresh (ds.erase n))

/-- The tail of `addCustomDomain` after the config has been loaded: the
duplicate check, the permission request, the in-place push and the save
(split out of `addCustomDomain` purely to name the continuation; the
composition below is the source function unchanged). -/
def addAfterLoad (w1 : World) (config : ConfigRef) (normalized : String) :
    World × Except Unit AddResult :=
  if (readConfig w1 config).contains normalized then
    (w1, Except.ok ⟨false, "domain_already_exists"⟩)
  else
    let pr := chromePermissionsRequest w1 (domainToUrlPatterns normalized)
    match pr.2 with
    | Except.error e => (pr.1, Except.error e)
    | Except.ok granted =>
      if !granted then
        (pr.1, Except.ok ⟨false, "permission_denied"⟩)
      else
        let pushed := pushDomain pr.1 config normalized
        let sv := saveDomainConfig pushed.1 pushed.2
        match sv.2 with
        | Except.error e => (sv.1, Except.error e)
        | Except.ok _ => (sv.1, Except.ok ⟨true, "domain_added"⟩)

/-- `addCustomDomain` from the domains module.  The returned
`Except.error ()` marks an exception escaping to the caller (possible at
the permission request and at the save — neither `await` is wrapped in
`try`/`catch` in the source). -/
def addCustomDomain (w : World) (domain : String) :
    World × Except Unit AddResult :=
  let normalized := normalizeDomain domain
  if !(validateDomain normalized) then
    (w, Except.ok ⟨false, "invalid_domain_format"⟩)
  else if DEFAULT_DOMAINS.contains normalized then
    (w, Except.ok ⟨false, "domain_already_builtin"⟩)
  else
    let l := loadDomainConfig w
    addAfterLoad l.1 l.2 normalized

/-- The tail of `removeCustomDomain` after the config has been loaded
(same splitting as `addAfterLoad`). -/
def removeAfterLoad (w1 : World) (config : ConfigRef) (normalized : String) :
    World × Except Unit AddResult :=
  if !((readConfig w1 config).contains normalized) then
    (w1, Except.ok ⟨false, "domain_not_found"⟩)
  else
    let spliced := spliceDomain w1 config normalized
    let sv := saveDomainConfig spliced.1 spliced.2
    match sv.2 with
    | Except.error e => (sv.1, Except.error e)
    | Except.ok _ => (sv.1, Except.ok ⟨true, "domain_removed"⟩)

/-- `removeCustomDomain` from the domains module (`indexOf(...) === -1` is
rendered as the negated `contains` test; `splice` removes that first
index). -/
def removeCustomDomain (w : World) (domain : String) :
    World × Except Unit AddResult :=
  let normalized := normalizeDomain domain
  let l := loadDomainConfig w
  removeAfterLoad l.1 l.2 normalized

/-- `matchesCustomDomain` from the background script, parameterized by the
host URL parser (`new URL(url)` followed by `.hostname`, with a parse
failure — the `catch` branch — modelled as `none`). -/
def matchesCustomDomain (parseHostname : String → Option String)
    (w : World) (url : String) : World × Bool :=
  let l := loadDomainConfig w
  let ds := readConfig l.1 l.2
  if ds.length = 0 then (l.1, false)
  else
    match parseHostname url with
    | none => (l.1, false)
    | some hostname =>
      (l.1, ds.any fun domain =>
        hostname == domain || jsEndsWith hostname ("." ++ domain))

/-- The `customDomains` list a caller observes from `loadDomainConfig` in
world `w` (the loaded config dereferenced in the post-load world). -/
def loadView (w : World) : List String :=
  readConfig (loadDomainConfig w).1 (loadDomainConfig w).2

/-! ## Character-level lemmas -/

/-- The characters `lowerChar` does not fix. -/
def upperChars : List Char :=
  ['A', 'B', 'C', 'D', 'E', 'F', 'G', 'H', 'I', 'J', 'K', 'L', 'M',
   'N', 'O', 'P', 'Q', 'R', 'S', 'T', 'U', 'V', 'W', 'X', 'Y', 'Z']

theorem lowerChar_eq_self {c : Char} (h : c ∉ upperChars) :
    lowerChar c = c := by
  have hA : ¬(c = 'A') := fun e => h (by rw [e]; decide)
  have hB : ¬(c = 'B') := fun e => h (by rw [e]; decide)
  have hC : ¬(c = 'C') := fun e => h (by rw [e]; decide)
  have hD : ¬(c = 'D') := fun e => h (by rw [e]; decide)
  have hE : ¬(c = 'E') := fun e => h (by rw [e]; decide)
  have hF : ¬(c = 'F') := fun e => h (by rw [e]; decide)
  have hG : ¬(c = 'G') := fun e => h (by rw [e]; decide)
  have hH : ¬(c = 'H') := fun e => h (by rw [e]; decide)
  have hI : ¬(c = 'I') := fun e => h (by rw [e]; decide)
  have hJ : ¬(c = 'J') := fun e => h (by rw [e]; decide)
  have hK : ¬(c = 'K') := fun e => h (by rw [e]; decide)
  have hL : ¬(c = 'L') := fun e => h (by rw [e]; decide)
  have hM : ¬(c = 'M') := fun e => h (by rw [e]; decide)
  have hN : ¬(c = 'N') := fun e => h (by rw [e]; decide)
  have hO : ¬(c = 'O') := fun e => h (by rw [e]; decide)
  have hP : ¬(c = 'P') := fun e => h (by rw [e]; decide)
  have hQ : ¬(c = 'Q') := fun e => h (by rw [e]; decide)
  have hR : ¬(c = 'R') := fun e => h (by rw [e]; decide)
  have hS : ¬(c = 'S') := fun e => h (by rw [e]; decide)
  have hT : ¬(c = 'T') := fun e => h (by rw [e]; decide)
  have hU : ¬(c = 'U') := fun e => h (by rw [e]; decide)
  have hV : ¬(c = 'V') := fun e => h (by rw [e]; decide)
  have hW : ¬(c = 'W') := fun e => h (by rw [e]; decide)
  have hX : ¬(c = 'X') := fun e => h (by rw [e]; decide)
  have hY : ¬(c = 'Y') := fun e => h (by rw [e]; decide)
  have hZ : ¬(c = 'Z') := fun e => h (by rw [e]; decide)
  unfold lowerChar
  rw [if_neg hA, if_neg hB, if_neg hC, if_neg hD, if_neg hE, if_neg hF, if_neg hG, if_neg hH, if_neg hI, if_neg hJ, if_neg hK, if_neg hL, if_neg hM, if_neg hN, if_neg hO, if_neg hP, if_neg hQ, if_neg hR, if_neg hS, if_neg hT, if_neg hU, if_neg hV, if_neg hW, if_neg hX, if_neg hY, if_neg hZ]

/-- Lowercasing is idempotent. -/
theorem lowerChar_idem (c : Char) : lowerChar (lowerChar c) = lowerChar c := by
  by_cases h : c ∈ upperChars
  · fin_cases h <;> decide
  · rw [lowerChar_eq_self h, lowerChar_eq_self h]

/-- Lowercasing neither creates nor destroys whitespace. -/
theorem lowerChar_ws (c : Char) :
    isJsWhitespace (lowerChar c) = isJsWhitespace c := by
  by_cases h : c ∈ upperChars
  · fin_cases h <;> decide
  · rw [lowerChar_eq_self h]

/-- Idempotence of lowercasing, lifted to character lists. -/
theorem map_lowerChar_idem (l : List Char) :
    (l.map lowerChar).map lowerChar = l.map lowerChar := by
  induction l with
  | nil => rfl
  | cons c cs ih => simp [List.map_cons, lowerChar_idem, ih]

/-! ## Trimming lemmas -/

/-- A character list with no leading and no trailing whitespace. -/
structure NoEdgeWs (l : List Char) : Prop where
  headOk : ∀ x, l.head? = some x → isJsWhitespace x = false
  lastOk : ∀ x, l.getLast? = some x → isJsWhitespace x = false

theorem head?_dropWhile {p : Char → Bool} {l : List Char} {x : Char}
    (h : (l.dropWhile p).head? = some x) : p x = false := by
  induction l with
  | nil => simp at h
  | cons c cs ih =>
    rw [List.dropWhile_cons] at h
    by_cases hc : p c = true
    · exact ih (by simpa [hc] using h)
    · rw [if_neg hc] at h
      simp only [List.head?_cons, Option.some.injEq] at h
      subst h
      simpa using hc

theorem dropWhile_eq_self_of_head {p : Char → Bool} {l : List Char}
    (h : ∀ x, l.head? = some x → p x = false) : l.dropWhile p = l := by
  cases l with
  | nil => rfl
  | cons c cs =>
    rw [List.dropWhile_cons, if_neg (by simp [h c rfl])]

/-- `trimChars` output has no whitespace at either edge. -/
theorem trimChars_noEdge (l : List Char) : NoEdgeWs (trimChars l) := by
  unfold trimChars
  constructor
  · intro x hx
    rw [List.head?_reverse] at hx
    rcases hD : (l.dropWhile isJsWhitespace).reverse.dropWhile isJsWhitespace
      with _ | ⟨d, ds⟩
    · rw [hD] at hx; simp at hx
    · rw [hD] at hx
      have hsuffix : (l.dropWhile isJsWhitespace).reverse.dropWhile
          isJsWhitespace <:+ (l.dropWhile isJsWhitespace).reverse :=
        List.dropWhile_suffix _
      obtain ⟨t, ht⟩ := hsuffix
      rw [hD] at ht
      have hx2 : (l.dropWhile isJsWhitespace).reverse.getLast? = some x := by
        rw [← ht, List.getLast?_append_of_ne_nil _ (by simp)]
        exact hx
      rw [List.getLast?_reverse] at hx2
      exact head?_dropWhile hx2
  · intro x hx
    rw [List.getLast?_reverse] at hx
    exact head?_dropWhile hx

/-- Trimming an already trimmed list is the identity. -/
theorem trimChars_eq_self {l : List Char} (h : NoEdgeWs l) :
    trimChars l = l := by
  unfold trimChars
  rw [dropWhile_eq_self_of_head h.headOk]
  rw [dropWhile_eq_self_of_head (by
    intro x hx
    rw [List.head?_reverse] at hx
    exact h.lastOk x hx)]
  exact List.reverse_reverse l

theorem getLast?_map (f : Char → Char) (l : List Char) :
    (l.map f).getLast? = Option.map f l.getLast? := by
  rw [← List.head?_reverse, ← List.map_reverse, List.head?_map,
    List.head?_reverse]

/-- Lowercasing preserves trimmedness. -/
theorem noEdgeWs_map_lower {l : List Char} (h : NoEdgeWs l) :
    NoEdgeWs (l.map lowerChar) := by
  constructor
  · intro x hx
    rw [List.head?_map] at hx
    rcases hl : l.head? with _ | ⟨y⟩
    · rw [hl] at hx; simp at hx
    · rw [hl] at hx
      simp only [Option.map_some', Option.some.injEq] at hx
      subst hx
      rw [lowerChar_ws]
      exact h.headOk y hl
  · intro x hx
    rw [getLast?_map] at hx
    rcases hl : l.getLast? with _ | ⟨y⟩
    · rw [hl] at hx; simp at hx
    · rw [hl] at hx
      simp only [Option.map_some', Option.some.injEq] at hx
      subst hx
      rw [lowerChar_ws]
      exact h.lastOk y hl

/-- The character list of a normalized domain. -/
theorem normalizeDomain_data (s : String) :
    (normalizeDomain s).data = (trimChars s.data).map lowerChar := rfl

/-- `normalizeDomain` is idempotent: the `customDomains` entries written by
`addCustomDomain` are fixed points of normalization. -/
theorem normalizeDomain_idem (s : String) :
    normalizeDomain (normalizeDomain s) = normalizeDomain s := by
  apply String.ext
  rw [normalizeDomain_data, normalizeDomain_data]
  rw [trimChars_eq_self (noEdgeWs_map_lower (trimChars_noEdge s.data))]
  exact map_lowerChar_idem _

/-- A normalized domain is already all lower case. -/
theorem normalizeDomain_lower (s : String) :
    (normalizeDomain s).data.map lowerChar = (normalizeDomain s).data := by
  rw [normalizeDomain_data]
  exact map_lowerChar_idem _

/-! ## Membership conversions -/

theorem contains_eq_elem (l : List String) (a : String) :
    l.contains a = List.elem a l := rfl

theorem contains_true_iff {l : List String} {a : String} :
    l.contains a = true ↔ a ∈ l := by
  rw [contains_eq_elem]; exact List.elem_iff

theorem contains_false_iff {l : List String} {a : String} :
    l.contains a = false ↔ a ∉ l := by
  rw [← contains_true_iff]
  cases h : l.contains a <;> simp

/-! ## Characterization of the load path -/

theorem loadDomainConfig_eq (w : World) :
    loadDomainConfig w =
      ({ w with events := w.events ++ [ExtEvent.storageGet] },
       if w.loadFails then ConfigRef.defaultRef
       else
         match w.stored with
         | none => ConfigRef.defaultRef
         | some ds => ConfigRef.fresh (ds.filter validateDomain)) := by
  unfold loadDomainConfig chromeStorageSyncGet
  cases hl : w.loadFails
  · cases hs : w.stored <;> simp [hl, hs]
  · simp [hl]

theorem loadView_eq (w : World) :
    loadView w =
      (if w.loadFails then w.defaultObj
       else
         match w.stored with
         | none => w.defaultObj
         | some ds => ds.filter validateDomain) := by
  unfold loadView
  rw [loadDomainConfig_eq]
  cases hl : w.loadFails
  · cases hs : w.stored <;> simp [hl, hs, readConfig]
  · simp [hl, readConfig]

/-- `loadView` depends only on the three fields the load path reads. -/
theorem loadView_congr {w w' : World} (hs : w'.stored = w.stored)
    (hd : w'.defaultObj = w.defaultObj) (hl : w'.loadFails = w.loadFails) :
    loadView w' = loadView w := by
  rw [loadView_eq, loadView_eq, hs, hd, hl]

/-! ## The data-model invariant -/

/-- Case-insensitive equality of two JavaScript strings (equality after
lowercasing). -/
def lowerEq (a b : String) : Prop :=
  a.data.map lowerChar = b.data.map lowerChar

/-- The data-model invariant on a `customDomains` list: every element is
normalized (a fixed point of `normalizeDomain`) and valid, no element
equals a built-in domain case-insensitively, and there are no
duplicates. -/
def DomainInv (ds : List String) : Prop :=
  (∀ d ∈ ds, normalizeDomain d = d) ∧
  (∀ d ∈ ds, validateDomain d = true) ∧
  (∀ d ∈ ds, ∀ b ∈ DEFAULT_DOMAINS, ¬ lowerEq d b) ∧
  ds.Nodup

instance (ds : List String) : Decidable (DomainInv ds) := by
  unfold DomainInv lowerEq
  infer_instance

/-- The invariant is inherited by sublists (in particular by
`List.filter` and `List.erase` results). -/
theorem DomainInv.sublist {l' l : List String} (h : l'.Sublist l)
    (hl : DomainInv l) : DomainInv l' := by
  obtain ⟨h1, h2, h3, h4⟩ := hl
  exact ⟨fun d hd => h1 d (h.subset hd), fun d hd => h2 d (h.subset hd),
    fun d hd => h3 d (h.subset hd), h4.sublist h⟩

/-- Each built-in domain is already lower case. -/
theorem builtin_lower :
    ∀ b ∈ DEFAULT_DOMAINS, b.data.map lowerChar = b.data := by decide

/-- Appending a freshly normalized, valid, non-built-in, absent domain
preserves the invariant. -/
theorem DomainInv.append {V : List String} (hV : DomainInv V) (d : String)
    (hval : validateDomain (normalizeDomain d) = true)
    (hbi : DEFAULT_DOMAINS.contains (normalizeDomain d) = false)
    (hmem : V.contains (normalizeDomain d) = false) :
    DomainInv (V ++ [normalizeDomain d]) := by
  obtain ⟨h1, h2, h3, h4⟩ := hV
  have hnotmem : normalizeDomain d ∉ V := contains_false_iff.mp hmem
  refine ⟨?_, ?_, ?_, ?_⟩
  · intro x hx
    rcases List.mem_append.mp hx with hx | hx
    · exact h1 x hx
    · rw [List.mem_singleton.mp hx]
      exact normalizeDomain_idem d
  · intro x hx
    rcases List.mem_append.mp hx with hx | hx
    · exact h2 x hx
    · rw [List.mem_singleton.mp hx]
      exact hval
  · intro x hx b hb
    rcases List.mem_append.mp hx with hx | hx
    · exact h3 x hx b hb
    · rw [List.mem_singleton.mp hx]
      intro hle
      unfold lowerEq at hle
      rw [normalizeDomain_lower d, builtin_lower b hb] at hle
      have hxb : normalizeDomain d = b := String.ext hle
      rw [contains_false_iff] at hbi
      exact hbi (hxb ▸ hb)
  · rw [List.nodup_append]
    refine ⟨h4, List.nodup_singleton _, ?_⟩
    intro x hx hx'
    rw [List.mem_singleton.mp hx'] at hx
    exact hnotmem hx

/-! ## Path characterizations of the two mutating operations -/

/-- Every terminated `addAfterLoad` call either leaves the persisted value
untouched or persists exactly the loaded view with the normalized domain
appended, the latter only when the duplicate check passed, the grant was
given and the save succeeded. -/
theorem addAfterLoad_stored (w1 : World) (c : ConfigRef) (n : String) :
    (addAfterLoad w1 c n).1.stored = w1.stored ∨
    ((addAfterLoad w1 c n).1.stored = some (readConfig w1 c ++ [n]) ∧
      (readConfig w1 c).contains n = false) := by
  cases h3 : (readConfig w1 c).contains n
  · cases hp : w1.permFails
    · cases hg : w1.permGrant
      · left
        simp [addAfterLoad, contains_false_iff.mp h3,
          chromePermissionsRequest, hp, hg]
      · cases hsf : w1.saveFails
        · right
          refine ⟨?_, rfl⟩
          cases c
          all_goals simp only [readConfig] at h3
          all_goals
            simp [addAfterLoad, contains_false_iff.mp h3,
              chromePermissionsRequest, hp, hg, pushDomain,
              saveDomainConfig, chromeStorageSyncSet, hsf, readConfig]
        · left
          cases c
          all_goals simp only [readConfig] at h3
          all_goals
            simp [addAfterLoad, contains_false_iff.mp h3,
              chromePermissionsRequest, hp, hg, pushDomain,
              saveDomainConfig, chromeStorageSyncSet, hsf, readConfig]
    · left
      simp [addAfterLoad, contains_false_iff.mp h3,
        chromePermissionsRequest, hp]
  · left
    simp [addAfterLoad, contains_true_iff.mp h3]

/-- `loadDomainConfig` changes nothing but the event log. -/
theorem loadDomainConfig_fst (w : World) :
    (loadDomainConfig w).1 =
      { w with events := w.events ++ [ExtEvent.storageGet] } := by
  rw [loadDomainConfig_eq]

/-- The loaded view seen inside `addCustomDomain`/`removeCustomDomain` is
`loadView`. -/
theorem readConfig_load (w : World) :
    readConfig (loadDomainConfig w).1 (loadDomainConfig w).2 = loadView w :=
  rfl

/-- Every terminated `addCustomDomain` call either leaves the persisted
value untouched or persists exactly the loaded view with the normalized
domain appended, the latter only after all three rejection checks
passed. -/
theorem addCustomDomain_stored (w : World) (d : String) :
    (addCustomDomain w d).1.stored = w.stored ∨
    ((addCustomDomain w d).1.stored =
        some (loadView w ++ [normalizeDomain d]) ∧
      validateDomain (normalizeDomain d) = true ∧
      DEFAULT_DOMAINS.contains (normalizeDomain d) = false ∧
      (loadView w).contains (normalizeDomain d) = false) := by
  cases h1 : validateDomain (normalizeDomain d)
  · left; simp [addCustomDomain, h1]
  · cases h2 : DEFAULT_DOMAINS.contains (normalizeDomain d)
    · have := addAfterLoad_stored (loadDomainConfig w).1 (loadDomainConfig w).2
        (normalizeDomain d)
      rw [readConfig_load] at this
      have hfst : (loadDomainConfig w).1.stored = w.stored := by
        rw [loadDomainConfig_fst]
      rcases this with h | ⟨h, hcontains⟩
      · left
        simpa [addCustomDomain, h1, contains_false_iff.mp h2, hfst] using h
      · right
        refine ⟨?_, rfl, rfl, hcontains⟩
        simpa [addCustomDomain, h1, contains_false_iff.mp h2] using h
    · left; simp [addCustomDomain, h1, contains_true_iff.mp h2]

/-- Every terminated `removeAfterLoad` call either leaves the persisted
value untouched (the not-found rejection or a failed save) or persists
exactly the loaded view with the first occurrence of the normalized domain
removed. -/
theorem removeAfterLoad_stored (w1 : World) (c : ConfigRef) (n : String) :
    (removeAfterLoad w1 c n).1.stored = w1.stored ∨
    ((removeAfterLoad w1 c n).1.stored =
        some ((readConfig w1 c).erase n) ∧
      (readConfig w1 c).contains n = true) := by
  cases h3 : (readConfig w1 c).contains n
  · left
    simp [removeAfterLoad, contains_false_iff.mp h3]
  · cases hsf : w1.saveFails
    · right
      refine ⟨?_, rfl⟩
      cases c
      all_goals simp only [readConfig] at h3
      all_goals
        simp [removeAfterLoad, contains_true_iff.mp h3, spliceDomain,
          saveDomainConfig, chromeStorageSyncSet, hsf, readConfig]
    · left
      cases c
      all_goals simp only [readConfig] at h3
      all_goals
        simp [removeAfterLoad, contains_true_iff.mp h3, spliceDomain,
          saveDomainConfig, chromeStorageSyncSet, hsf, readConfig]

/-- Every terminated `removeCustomDomain` call either leaves the persisted
value untouched or persists the loaded view with the normalized domain
erased. -/
theorem removeCustomDomain_stored (w : World) (d : String) :
    (removeCustomDomain w d).1.stored = w.stored ∨
    ((removeCustomDomain w d).1.stored =
        some ((loadView w).erase (normalizeDomain d)) ∧
      (loadView w).contains (normalizeDomain d) = true) := by
  have := removeAfterLoad_stored (loadDomainConfig w).1 (loadDomainConfig w).2
    (normalizeDomain d)
  rw [readConfig_load] at this
  have hfst : (loadDomainConfig w).1.stored = w.stored := by
    rw [loadDomainConfig_fst]
  rcases this with h | ⟨h, hcontains⟩
  · left
    rw [← hfst]
    exact h
  · right
    exact ⟨h, hcontains⟩

/-! ## Result characterizations (no exception when the fallible backends
do not throw) -/

theorem addAfterLoad_ok (w1 : World) (c : ConfigRef) (n : String)
    (hp : w1.permFails = false) (hsf : w1.saveFails = false) :
    ∃ r, (addAfterLoad w1 c n).2 = Except.ok r := by
  cases h3 : (readConfig w1 c).contains n
  · cases hg : w1.permGrant
    · exact ⟨⟨false, "permission_denied"⟩, by
        simp [addAfterLoad, contains_false_iff.mp h3,
          chromePermissionsRequest, hp, hg]⟩
    · refine ⟨⟨true, "domain_added"⟩, ?_⟩
      cases c
      all_goals simp only [readConfig] at h3
      all_goals
        simp [addAfterLoad, contains_false_iff.mp h3,
          chromePermissionsRequest, hp, hg, pushDomain, saveDomainConfig,
          chromeStorageSyncSet, hsf, readConfig]
  · exact ⟨⟨false, "domain_already_exists"⟩, by
      simp [addAfterLoad, contains_true_iff.mp h3]⟩

theorem removeAfterLoad_ok (w1 : World) (c : ConfigRef) (n : String)
    (hsf : w1.saveFails = false) :
    ∃ r, (removeAfterLoad w1 c n).2 = Except.ok r := by
  cases h3 : (readConfig w1 c).contains n
  · exact ⟨⟨false, "domain_not_found"⟩, by
      simp [removeAfterLoad, contains_false_iff.mp h3]⟩
  · refine ⟨⟨true, "domain_removed"⟩, ?_⟩
    cases c
    all_goals simp only [readConfig] at h3
    all_goals
      simp [removeAfterLoad, contains_true_iff.mp h3, spliceDomain,
        saveDomainConfig, chromeStorageSyncSet, hsf, readConfig]

/-- Reduction of `addCustomDomain` to its post-load tail once the two
early rejection checks are known to pass. -/
theorem addCustomDomain_as_tail {w : World} {d : String}
    (h1 : validateDomain (normalizeDomain d) = true)
    (h2 : DEFAULT_DOMAINS.contains (normalizeDomain d) = false) :
    addCustomDomain w d =
      addAfterLoad (loadDomainConfig w).1 (loadDomainConfig w).2
        (normalizeDomain d) := by
  simp [addCustomDomain, h1, contains_false_iff.mp h2]

theorem addCustomDomain_ok (w : World) (d : String)
    (hp : w.permFails = false) (hsf : w.saveFails = false) :
    ∃ r, (addCustomDomain w d).2 = Except.ok r := by
  cases h1 : validateDomain (normalizeDomain d)
  · exact ⟨⟨false, "invalid_domain_format"⟩, by simp [addCustomDomain, h1]⟩
  · cases h2 : DEFAULT_DOMAINS.contains (normalizeDomain d)
    · rw [addCustomDomain_as_tail h1 h2]
      exact addAfterLoad_ok _ _ _ (by rw [loadDomainConfig_fst]; exact hp)
        (by rw [loadDomainConfig_fst]; exact hsf)
    · exact ⟨⟨false, "domain_already_builtin"⟩, by
        simp [addCustomDomain, h1, contains_true_iff.mp h2]⟩

theorem removeCustomDomain_ok (w : World) (d : String)
    (hsf : w.saveFails = false) :
    ∃ r, (removeCustomDomain w d).2 = Except.ok r :=
  removeAfterLoad_ok (loadDomainConfig w).1 (loadDomainConfig w).2
    (normalizeDomain d) (by rw [loadDomainConfig_fst]; exact hsf)

/-! ## Auxiliary facts for the pattern claims -/

theorem flatMap_patterns_length (l : List String) :
    (l.flatMap domainToUrlPatterns).length = 2 * l.length := by
  induction l with
  | nil => rfl
  | cons d ds ih =>
    simp only [List.flatMap_cons, List.length_append, ih,
      List.length_cons]
    simp [domainToUrlPatterns]
    ring

/-! ## Claim theorems -/

/-- C7: for every domain `d`, the pattern generator returns exactly the
two-element sequence `["https://" ++ d ++ "/*", "https://*." ++ d ++ "/*"]`
— the exact-host pattern followed by the wildcard-subdomain pattern in
that fixed order — and in particular
`domainToUrlPatterns "example.com" =
["https://example.com/*", "https://*.example.com/*"]`. -/
theorem claim_C7_domainToUrlPatterns :
    (∀ d : String, domainToUrlPatterns d =
      ["https://" ++ d ++ "/*", "https://*." ++ d ++ "/*"]) ∧
    domainToUrlPatterns "example.com" =
      ["https://example.com/*", "https://*.example.com/*"] :=
  ⟨fun _ => rfl, by decide⟩

/-- C6: for every list of custom domains, `getAllUrlPatterns` returns the
concatenation of the built-in domains' patterns (in built-in list order)
followed by the custom domains' patterns (in custom list order), without
deduplication (each domain contributes its two patterns, so the length is
`2 · |builtin| + 2 · |custom|`); in particular `getAllUrlPatterns []` is
exactly the twelve built-in patterns, of length `2 · |DEFAULT_DOMAINS|`. -/
theorem claim_C6_getAllUrlPatterns :
    (∀ custom : List String,
      getAllUrlPatterns custom =
        DEFAULT_DOMAINS.flatMap domainToUrlPatterns ++
          custom.flatMap domainToUrlPatterns) ∧
    (∀ custom : List String,
      (getAllUrlPatterns custom).length =
        2 * DEFAULT_DOMAINS.length + 2 * custom.length) ∧
    getAllUrlPatterns [] =
      ["https://feishu.cn/*", "https://*.feishu.cn/*",
       "https://feishu.net/*", "https://*.feishu.net/*",
       "https://larksuite.com/*", "https://*.larksuite.com/*",
       "https://feishu-pre.net/*", "https://*.feishu-pre.net/*",
       "https://larkoffice.com/*", "https://*.larkoffice.com/*",
       "https://larkenterprise.com/*", "https://*.larkenterprise.com/*"] ∧
    (getAllUrlPatterns []).length = 2 * DEFAULT_DOMAINS.length := by
  refine ⟨fun _ => rfl, fun custom => ?_, by decide, by decide⟩
  unfold getAllUrlPatterns
  rw [List.length_append, flatMap_patterns_length, flatMap_patterns_length]

/-- C5: for every built-in domain `d`, `addCustomDomain d` returns
`success = false` with message `domain_already_builtin` regardless of the
current state, and the world is completely unchanged: no storage read, no
permission request, no storage write. -/
theorem claim_C5_add_builtin (w : World) (d : String)
    (hd : d ∈ DEFAULT_DOMAINS) :
    addCustomDomain w d =
      (w, Except.ok ⟨false, "domain_already_builtin"⟩) := by
  have h1 : normalizeDomain d = d := by fin_cases hd <;> decide
  have h2 : validateDomain d = true := by fin_cases hd <;> decide
  have h3 : DEFAULT_DOMAINS.contains d = true := contains_true_iff.mpr hd
  simp [addCustomDomain, h1, h2, contains_true_iff.mp h3]

/-- Witness for C5 at the concrete built-in domain `feishu.cn` and a
nontrivial world with a failing permission backend and a failing storage
backend (the result is still the pure rejection). -/
theorem claim_C5_witness :
    ("feishu.cn" ∈ DEFAULT_DOMAINS) ∧
    addCustomDomain
        ⟨some ["corp.example.com"], [], true, true, true, true, []⟩
        "feishu.cn" =
      (⟨some ["corp.example.com"], [], true, true, true, true, []⟩,
       Except.ok ⟨false, "domain_already_builtin"⟩) :=
  ⟨by decide,
   claim_C5_add_builtin
     ⟨some ["corp.example.com"], [], true, true, true, true, []⟩
     "feishu.cn" (by decide)⟩

/-- C10: `loadDomainConfig` returns the module-level
`DEFAULT_DOMAIN_CONFIG` object itself (by reference) when the key is
absent, and `addCustomDomain` pushes into the loaded object in place.
Concretely: starting from the pristine module state with the key absent, a
granted permission, and a failing storage write, `addCustomDomain` throws
(the save failure propagates), the key is still absent, the module-level
default object now contains the new domain, and a later `loadDomainConfig`
— still finding the key absent — returns the default object (by
reference) whose `customDomains` is `["corp.example.com"]` instead of the
empty default. -/
theorem claim_C10_default_aliasing :
    (addCustomDomain ⟨none, [], true, false, true, false, []⟩
        "corp.example.com").2 = Except.error () ∧
    (addCustomDomain ⟨none, [], true, false, true, false, []⟩
        "corp.example.com").1.stored = none ∧
    (addCustomDomain ⟨none, [], true, false, true, false, []⟩
        "corp.example.com").1.defaultObj = ["corp.example.com"] ∧
    (loadDomainConfig (addCustomDomain
        ⟨none, [], true, false, true, false, []⟩
        "corp.example.com").1).2 = ConfigRef.defaultRef ∧
    loadView (addCustomDomain ⟨none, [], true, false, true, false, []⟩
        "corp.example.com").1 = ["corp.example.com"] :=
  ⟨rfl, rfl, rfl, rfl, rfl⟩

/-- C4: the source diverges from the claim that `load()` returns a config
with empty `customDomains` whenever the persisted key is absent.  After
the C10 aliasing execution (add on an absent key whose save throws), the
key is still absent yet `loadDomainConfig` returns a config whose
`customDomains` is `["corp.example.com"]`, not the empty default. -/
theorem claim_C4_load_divergence :
    (addCustomDomain ⟨none, [], true, false, true, false, []⟩
        "corp.example.com").1.stored = none ∧
    loadView (addCustomDomain ⟨none, [], true, false, true, false, []⟩
        "corp.example.com").1 = ["corp.example.com"] ∧
    loadView (addCustomDomain ⟨none, [], true, false, true, false, []⟩
        "corp.example.com").1 ≠ [] :=
  ⟨rfl, rfl, by decide⟩

/-- C1, counterexample: `addCustomDomain` and `removeCustomDomain` do let
a lower-layer exception escape.  With a granted permission and a failing
storage write both operations propagate the storage exception
(`Except.error`), instead of returning a structured result with reason
`unknown`. -/
theorem claim_C1_counterexample :
    (addCustomDomain ⟨some [], [], true, false, true, false, []⟩
        "corp.example.com").2 = Except.error () ∧
    (removeCustomDomain
        ⟨some ["corp.example.com"], [], true, false, true, false, []⟩
        "corp.example.com").2 = Except.error () :=
  ⟨rfl, rfl⟩

/-- C1, amended: all domain-logic rejections are returned as structured
results and storage *read* failures never escape (`loadFails` is
unconstrained below), but exceptions thrown by the permission request or
by the storage write do propagate to the caller (the options page catches
them and shows the `unknown` message; no code path of the module itself
returns a reason `unknown`).  Whenever those two backends do not throw,
both operations return a structured result. -/
theorem claim_C1_amended (w : World) (d : String)
    (hp : w.permFails = false) (hsf : w.saveFails = false) :
    (∃ r, (addCustomDomain w d).2 = Except.ok r) ∧
    (∃ r, (removeCustomDomain w d).2 = Except.ok r) :=
  ⟨addCustomDomain_ok w d hp hsf, removeCustomDomain_ok w d hsf⟩

/-- Witness for C1 at a concrete world whose storage read fails but whose
permission grant and storage write succeed: both operations return
structured results. -/
theorem claim_C1_witness :
    ((⟨some [], [], false, true, true, false, []⟩ : World).permFails =
        false) ∧
    ((⟨some [], [], false, true, true, false, []⟩ : World).saveFails =
        false) ∧
    (∃ r, (addCustomDomain ⟨some [], [], false, true, true, false, []⟩
        "corp.example.com").2 = Except.ok r) ∧
    (∃ r, (removeCustomDomain ⟨some [], [], false, true, true, false, []⟩
        "corp.example.com").2 = Except.ok r) :=
  ⟨rfl, rfl,
   claim_C1_amended ⟨some [], [], false, true, true, false, []⟩
     "corp.example.com" rfl rfl⟩

/-- C2: when the permission backend answers (does not throw) and denies
the grant, `addCustomDomain` on a domain that passed the three rejection
checks returns `success = false` with reason `permission_denied`, the
persisted value and the module-level default object are unchanged, the
only external calls are the storage read and the permission request (in
particular no storage write), and a subsequent `loadDomainConfig` shows
the same view as before the call: a domain is never persisted without a
corresponding granted permission. -/
theorem claim_C2_permission_denied (w : World) (d : String)
    (hpf : w.permFails = false) (hpg : w.permGrant = false)
    (hval : validateDomain (normalizeDomain d) = true)
    (hbi : DEFAULT_DOMAINS.contains (normalizeDomain d) = false)
    (hmem : (loadView w).contains (normalizeDomain d) = false) :
    (addCustomDomain w d).2 =
      Except.ok ⟨false, "permission_denied"⟩ ∧
    (addCustomDomain w d).1.stored = w.stored ∧
    (addCustomDomain w d).1.defaultObj = w.defaultObj ∧
    (addCustomDomain w d).1.events =
      w.events ++ [ExtEvent.storageGet,
        ExtEvent.permissionRequest
          (domainToUrlPatterns (normalizeDomain d))] ∧
    loadView (addCustomDomain w d).1 = loadView w := by
  have hw1p : (loadDomainConfig w).1.permFails = false := by
    rw [loadDomainConfig_fst]; exact hpf
  have hw1g : (loadDomainConfig w).1.permGrant = false := by
    rw [loadDomainConfig_fst]; exact hpg
  have hmem' : (readConfig (loadDomainConfig w).1
      (loadDomainConfig w).2).contains (normalizeDomain d) = false := hmem
  have hden : addAfterLoad (loadDomainConfig w).1 (loadDomainConfig w).2
      (normalizeDomain d) =
      ({ (loadDomainConfig w).1 with
          events := (loadDomainConfig w).1.events ++
            [ExtEvent.permissionRequest
              (domainToUrlPatterns (normalizeDomain d))] },
       Except.ok ⟨false, "permission_denied"⟩) := by
    simp [addAfterLoad, contains_false_iff.mp hmem',
      chromePermissionsRequest, hw1p, hw1g]
  rw [addCustomDomain_as_tail hval hbi, hden]
  refine ⟨rfl, ?_, ?_, ?_, ?_⟩
  · simp [loadDomainConfig_fst]
  · simp [loadDomainConfig_fst]
  · simp [loadDomainConfig_fst]
  · exact loadView_congr (by simp [loadDomainConfig_fst])
      (by simp [loadDomainConfig_fst]) (by simp [loadDomainConfig_fst])

/-- Witness for C2 at a pristine world whose permission backend denies the
grant. -/
theorem claim_C2_witness :
    (addCustomDomain ⟨none, [], false, false, false, false, []⟩
        "corp.example.com").2 =
      Except.ok ⟨false, "permission_denied"⟩ ∧
    (addCustomDomain ⟨none, [], false, false, false, false, []⟩
        "corp.example.com").1.stored = none :=
  ⟨(claim_C2_permission_denied
      ⟨none, [], false, false, false, false, []⟩ "corp.example.com"
      rfl rfl (by decide) (by decide) (by decide)).1,
   (claim_C2_permission_denied
      ⟨none, [], false, false, false, false, []⟩ "corp.example.com"
      rfl rfl (by decide) (by decide) (by decide)).2.1⟩

/-- C8: when the normalized input is not present in the `customDomains`
list that `loadDomainConfig` yields (the persisted list after read-side
validation — identical to the raw persisted list whenever the data-model
invariants of C3 hold), `removeCustomDomain` returns `success = false`
with reason `domain_not_found` and does not alter stored state: no save is
performed (the only external call is the storage read) and the view a
`loadDomainConfig` returns afterwards is the same as before. -/
theorem claim_C8_remove_not_found (w : World) (d : String)
    (hmem : (loadView w).contains (normalizeDomain d) = false) :
    (removeCustomDomain w d).2 =
      Except.ok ⟨false, "domain_not_found"⟩ ∧
    (removeCustomDomain w d).1.stored = w.stored ∧
    (removeCustomDomain w d).1.defaultObj = w.defaultObj ∧
    (removeCustomDomain w d).1.events =
      w.events ++ [ExtEvent.storageGet] ∧
    loadView (removeCustomDomain w d).1 = loadView w := by
  have hmem' : (readConfig (loadDomainConfig w).1
      (loadDomainConfig w).2).contains (normalizeDomain d) = false := hmem
  have hnf : removeCustomDomain w d =
      ((loadDomainConfig w).1,
       Except.ok ⟨false, "domain_not_found"⟩) := by
    show removeAfterLoad (loadDomainConfig w).1 (loadDomainConfig w).2
        (normalizeDomain d) = _
    simp [removeAfterLoad, contains_false_iff.mp hmem']
  rw [hnf]
  refine ⟨rfl, ?_, ?_, ?_, ?_⟩
  · simp [loadDomainConfig_fst]
  · simp [loadDomainConfig_fst]
  · simp [loadDomainConfig_fst]
  · exact loadView_congr (by simp [loadDomainConfig_fst])
      (by simp [loadDomainConfig_fst]) (by simp [loadDomainConfig_fst])

/-- Witness for C8: removing a never-added domain from a world with one
stored custom domain. -/
theorem claim_C8_witness :
    (removeCustomDomain
        ⟨some ["corp.example.com"], [], false, false, false, false, []⟩
        "other.example.org").2 =
      Except.ok ⟨false, "domain_not_found"⟩ ∧
    (removeCustomDomain
        ⟨some ["corp.example.com"], [], false, false, false, false, []⟩
        "other.example.org").1.stored = some ["corp.example.com"] :=
  ⟨(claim_C8_remove_not_found
      ⟨some ["corp.example.com"], [], false, false, false, false, []⟩
      "other.example.org" (by decide)).1,
   (claim_C8_remove_not_found
      ⟨some ["corp.example.com"], [], false, false, false, false, []⟩
      "other.example.org" (by decide)).2.1⟩

/-- The view returned by `loadDomainConfig` satisfies the data-model
invariant whenever the persisted value (if any) and the module-level
default object do. -/
theorem loadView_inv {w : World}
    (hstored : ∀ ds, w.stored = some ds → DomainInv ds)
    (hdef : DomainInv w.defaultObj) : DomainInv (loadView w) := by
  rw [loadView_eq]
  cases hl : w.loadFails
  · cases hs : w.stored with
    | none => simpa using hdef
    | some ds =>
      simpa using
        DomainInv.sublist (List.filter_sublist ds) (hstored ds hs)
  · simpa using hdef

/-- C3: starting from any state whose persisted `customDomains` (if
present) and module-level default object satisfy the data-model
invariants — every element normalized and valid, no element equal
(case-insensitively) to a built-in domain, no duplicates — every
terminated `addCustomDomain` or `removeCustomDomain` call leaves a
persisted value that still satisfies them. -/
theorem claim_C3_invariant_preservation (w : World) (d : String)
    (hstored : ∀ ds, w.stored = some ds → DomainInv ds)
    (hdef : DomainInv w.defaultObj) :
    (∀ ds, (addCustomDomain w d).1.stored = some ds → DomainInv ds) ∧
    (∀ ds, (removeCustomDomain w d).1.stored = some ds → DomainInv ds) := by
  have hview : DomainInv (loadView w) := loadView_inv hstored hdef
  constructor
  · intro ds hds
    rcases addCustomDomain_stored w d with h | ⟨h, hval, hbi, hmem⟩
    · rw [h] at hds
      exact hstored ds hds
    · rw [h] at hds
      obtain rfl := Option.some.inj hds
      exact DomainInv.append hview d hval hbi hmem
  · intro ds hds
    rcases removeCustomDomain_stored w d with h | ⟨h, -⟩
    · rw [h] at hds
      exact hstored ds hds
    · rw [h] at hds
      obtain rfl := Option.some.inj hds
      exact DomainInv.sublist (List.erase_sublist _ _) hview

/-- Witness for C3: a successful add of `shop.example.org` on top of a
stored `["corp.example.com"]` yields a persisted list that still
satisfies the invariant. -/
theorem claim_C3_witness :
    DomainInv ["corp.example.com", "shop.example.org"] := by
  have h := claim_C3_invariant_preservation
    ⟨some ["corp.example.com"], [], false, false, true, false, []⟩
    "shop.example.org"
    (by
      intro ds hds
      injection hds with h2
      rw [← h2]
      decide)
    (by decide)
  exact h.1 ["corp.example.com", "shop.example.org"] rfl

/-- C9: for every URL parser answer, world, and URL, the
injection-eligibility check of the background script returns `true` on a
parseable URL exactly when the parsed hostname equals one of the loaded
custom domains or is a proper subdomain of one (the hostname ends with
`"."` followed by the domain); it returns `false` on an unparseable URL
and `false` whenever the custom-domain list is empty. -/
theorem claim_C9_matchesCustomDomain
    (parseHostname : String → Option String) (w : World) (url : String) :
    (∀ host, parseHostname url = some host →
      ((matchesCustomDomain parseHostname w url).2 = true ↔
        ∃ d2 ∈ loadView w,
          host = d2 ∨ ("." ++ d2).data <:+ host.data)) ∧
    (parseHostname url = none →
      (matchesCustomDomain parseHostname w url).2 = false) ∧
    (loadView w = [] →
      (matchesCustomDomain parseHostname w url).2 = false) := by
  have hlv : readConfig (loadDomainConfig w).1 (loadDomainConfig w).2 =
      loadView w := rfl
  by_cases hz : (loadView w).length = 0
  · have hnil : loadView w = [] := List.length_eq_zero.mp hz
    refine ⟨?_, ?_, ?_⟩
    · intro host hp
      rw [show (matchesCustomDomain parseHostname w url).2 = false by
        simp [matchesCustomDomain, hlv, hz]]
      simp [hnil]
    · intro hp
      simp [matchesCustomDomain, hlv, hz]
    · intro hp
      simp [matchesCustomDomain, hlv, hz]
  · refine ⟨?_, ?_, ?_⟩
    · intro host hp
      have : (matchesCustomDomain parseHostname w url).2 =
          (loadView w).any fun domain =>
            host == domain || jsEndsWith host ("." ++ domain) := by
        simp [matchesCustomDomain, hlv, hz, hp]
      rw [this, List.any_eq_true]
      constructor
      · rintro ⟨d2, hd2, hpred⟩
        rcases Bool.or_eq_true _ _ |>.mp hpred with hcase | hcase
        · exact ⟨d2, hd2, Or.inl (by simpa using hcase)⟩
        · exact ⟨d2, hd2, Or.inr
            (List.isSuffixOf_iff_suffix.mp (by simpa [jsEndsWith] using hcase))⟩
      · rintro ⟨d2, hd2, hcase | hcase⟩
        · exact ⟨d2, hd2, Bool.or_eq_true _ _ |>.mpr
            (Or.inl (by simpa using hcase))⟩
        · exact ⟨d2, hd2, Bool.or_eq_true _ _ |>.mpr
            (Or.inr (by simpa [jsEndsWith] using
              List.isSuffixOf_iff_suffix.mpr hcase))⟩
    · intro hp
      simp [matchesCustomDomain, hlv, hz, hp]
    · intro hp
      exact absurd (by rw [hp]; rfl) hz

/-- Witness for C9: a URL whose hostname is a subdomain of the stored
custom domain `corp.example.com` matches. -/
theorem claim_C9_witness :
    (matchesCustomDomain (fun _ => some "docs.corp.example.com")
        ⟨some ["corp.example.com"], [], false, false, false, false, []⟩
        "https://docs.corp.example.com/wiki/x").2 = true := by
  have h := (claim_C9_matchesCustomDomain
    (fun _ => some "docs.corp.example.com")
    ⟨some ["corp.example.com"], [], false, false, false, false, []⟩
    "https://docs.corp.example.com/wiki/x").1 "docs.corp.example.com" rfl
  rw [h]
  exact ⟨"corp.example.com", by decide, Or.inr (by decide)⟩

/-- Spot checks of the embedded validator and normalizer against the
behaviour of the source regex and string functions. -/
theorem validator_spot_checks :
    validateDomain "corp.example.com" = true ∧
    validateDomain "feishu.cn" = true ∧
    validateDomain "xn--55qx5d.example.com" = true ∧
    validateDomain "-a.com" = false ∧
    validateDomain "a-.com" = false ∧
    validateDomain "a..com" = false ∧
    validateDomain ".com" = false ∧
    validateDomain "a.com." = false ∧
    validateDomain "a.com/" = false ∧
    validateDomain "https://a.com" = false ∧
    validateDomain "a.c" = false ∧
    validateDomain "a.c2" = false ∧
    validateDomain "toplevel" = false ∧
    validateDomain "  a.com  " = true ∧
    validateDomain "" = false ∧
    normalizeDomain "  A.Example.COM " = "a.example.com" := by decide

end Domains
